import Mathlib

/-!
Verification of the coupon-code extraction pipeline and result cache of the
disco-backend repository (src/main.py).

The extraction pipeline (the parse portion of the `/codes-detailed` and
`/codes-detailed-chatgpt` handlers, src/main.py lines 207-340 and 414-563)
is embedded as pure Lean functions over `List Char` / `String`.  The two
handlers share this parsing, validation and merge logic verbatim; the only
difference is a citation-stripping regex pass in the chatgpt variant, which
none of the verified properties depend on.  Python truthiness is modelled
where it matters: `description and <bool>` evaluates to the empty string
(not False) when the description is empty, and pydantic rejects that
non-bool value for the `has_description`/`has_conditions` bool fields of
`CodeInfo`, raising a ValidationError that aborts the parse — the per-line
parser and the extraction pipeline therefore return `Except`, with
`Except.error` for that raised exception.  Python string primitives
(`strip`, `upper`, `lower`, `split`, `replace`, `isalnum`, `isupper`,
`isdigit`, `startswith`, `in`) are modelled for ASCII text, matching their
Python behaviour on the ASCII inputs the parser manipulates.

The Redis-backed result cache (`_cache_get` / `_cache_set`, src/main.py
lines 74-99) is embedded as explicit state passing over a store value that
records availability, the current time and the stored entries, with the
backing-store operations returning `Except` to model raised exceptions.
-/

/-! Section: Python string primitives (ASCII model) -/

/-- Whitespace characters removed by Python `str.strip()` (ASCII subset). -/
def pyWhitespace (c : Char) : Bool :=
  c == ' ' || c == '\t' || c == '\n' || c == '\r' || c == '\x0b' || c == '\x0c'

/-- Python `str.strip()`: remove leading and trailing whitespace. -/
def pyStrip (s : String) : String :=
  ⟨((s.data.dropWhile pyWhitespace).reverse.dropWhile pyWhitespace).reverse⟩

/-- Python `str.upper()` (ASCII). -/
def pyUpper (s : String) : String := ⟨s.data.map Char.toUpper⟩

/-- Python `str.lower()` (ASCII). -/
def pyLower (s : String) : String := ⟨s.data.map Char.toLower⟩

/-- Python `str.replace(c, "")`: remove every occurrence of one character. -/
def pyRemoveChar (s : String) (c : Char) : String :=
  ⟨s.data.filter (fun x => x != c)⟩

/-- Python `str.isalnum()` (ASCII): nonempty and all characters alphanumeric. -/
def pyIsAlnum (s : String) : Bool :=
  !s.data.isEmpty && s.data.all Char.isAlphanum

/-- Python `str.isupper()` (ASCII): at least one cased (alphabetic) character
and no lower-case character. -/
def pyIsUpper (s : String) : Bool :=
  s.data.any Char.isAlpha && !s.data.any Char.isLower

/-- Python `str.startswith("#")`. -/
def pyStartsHash (s : String) : Bool :=
  match s.data with
  | [] => false
  | c :: _ => c == '#'

/-- Python `str.split(sep)` for a one-character separator: split on every
occurrence, keeping empty segments (`"a||b".split("|") == ["a", "", "b"]`). -/
def splitOnChar (sep : Char) : List Char → List (List Char)
  | [] => [[]]
  | c :: rest =>
    if c == sep then [] :: splitOnChar sep rest
    else
      match splitOnChar sep rest with
      | [] => [[c]]
      | l :: ls => (c :: l) :: ls

/-- `splitOnChar` packaged on `String`. -/
def pySplitOnChar (s : String) (sep : Char) : List String :=
  (splitOnChar sep s.data).map (fun l => ⟨l⟩)

/-- Python `str.split(" - ", 1)` when the separator occurs: split at the
first occurrence of the three-character separator `" - "`, returning the
text before and after it; `none` when the separator does not occur
(which also models the `" - " in line` membership test). -/
def splitOnDashOnce : List Char → Option (List Char × List Char)
  | [] => none
  | ' ' :: '-' :: ' ' :: rest => some ([], rest)
  | c :: rest =>
    match splitOnDashOnce rest with
    | some (l, r) => some (c :: l, r)
    | none => none

/-! Section: Data model (src/main.py lines 58-69) -/

/-- One candidate coupon entry (`class CodeInfo`, src/main.py lines 58-63). -/
structure CodeInfo where
  code : String
  description : String := ""
  conditions : String := ""
  has_description : Bool := false
  has_conditions : Bool := false
deriving DecidableEq, Repr

/-- The response payload (`class DetailedCodesResponse`, src/main.py
lines 68-69): a list of `CodeInfo` records. -/
structure DetailedCodesResponse where
  codes : List CodeInfo
deriving DecidableEq, Repr

/-! Section: Exclusion lexicon (src/main.py lines 214-251 and 433-470) -/

/-- The `excluded_words` set of src/main.py (identical in both handlers),
transcribed entry for entry; Python builds a set, membership below is
membership in this list. -/
def excluded_words : List String := [
  "FOUND", "SEVERAL", "TYPES", "BUT", "SPECIFIC", "UNIVERSALLY", "APPLICABLE",
  "ARE", "LESS", "COMMON", "MANY", "ACTIVATED", "THROUGH", "MEMBERSHIP",
  "VERIFICATION", "AUTOMATICALLY", "APPLIED", "DURING", "SALES", "BASED",
  "THE", "SEARCH", "RESULTS", "HERE", "SOME", "GENERAL", "DISCOUNT",
  "CATEGORIES", "AND", "OFFERS", "THAT", "FUNCTION", "LIKE", "CODES",
  "WIDELY", "OFF", "REQUIRES", "OFTEN", "FOR", "MEMBERS", "APP",
  "ORDER", "FREE", "SHIPPING", "EARLY", "ACCESS", "EXCLUSIVE", "CODE",
  "SIGNING", "MENTIONED", "SNIPPETS", "TIME", "SENSITIVE", "REQUIRE",
  "CONDITIONS", "BUYING", "MULTIPLE", "ITEMS", "CANNOT", "PROVIDE",
  "ACTUAL", "VALID", "CURRENTLY", "ACTIVE", "ALPHANUMERIC", "WITHOUT",
  "ONGOING", "PROMOTION", "INDICATE", "PROCESSES", "RATHER", "THAN",
  "SIMPLE", "PUBLIC", "THEREFORE", "THERE", "LIST", "DIRECTLY",
  "REQUESTED", "FORMAT", "DIFFERENT", "VERIFY", "WITH", "BIRTHDAY",
  "NIKE", "AMAZON", "WALMART", "MCDONALDS", "MCDONALD", "DISCOUNT",
  "COUPON", "PROMO", "DEAL", "SALE", "SAVE", "PERCENT", "DOLLAR",
  "UNFORTUNATELY", "DEALS", "SPECIFIC", "FOLLOWING", "AVAILABLE",
  "CURRENTLY", "WEBSITE", "ONLINE", "STORE", "PURCHASE", "CHECKOUT",
  "WHEN", "YOUR", "YOU", "CAN", "GET", "USE", "HAVE", "WILL", "THIS",
  "FROM", "WITH", "THEIR", "THEY", "ALSO", "MORE", "SOME", "ALL",
  "EACH", "ONLY", "FIRST", "LAST", "NEXT", "MAKE", "GOOD", "NEW",
  "USED", "WAY", "MAY", "TAKE", "COME", "ITS", "NOW", "FIND", "LONG",
  "DOWN", "DAY", "DID", "GET", "HAS", "HER", "HIM", "HIS", "HOW",
  "MAN", "OLD", "SEE", "TWO", "WHO", "BOY", "CAME", "ITS", "LET",
  "PUT", "SAY", "SHE", "TOO", "USE", "COMPILATION", "DETAILS",
  "RESTRICTIONS", "EXPIRATION", "DATES", "MINIMUM", "MAXIMUM",
  "USERS", "CUSTOMERS", "ORDERS", "ITEMS", "PRODUCTS", "SELECTION",
  "POPULAR", "DEVICES", "BOOKS", "HOME", "KITCHEN", "BEAUTY",
  "FASHION", "DELIVERY", "TRIAL", "MONTH", "STUDENT", "PRIME",
  "CARDS", "FIRE", "STICK", "RING", "CAMERA", "AUDIO", "SMART",
  "WIRELESS", "KINDLE", "AUDIBLE", "AUDIOBOOKS", "COMPUTER",
  "MOUNTS", "CABLES", "TOTAL", "SELECTED", "GRAPHIC", "COMIC",
  "LIGHTNING", "SUBSCRIBE", "OVER", "SPEND", "SELECT", "ADDITIONALLY",
  "PLEASE", "NOTE", "CHANGE", "FREQUENTLY", "ALWAYS", "IDEA",
  "TERMS", "SITE", "BEFORE", "MAKING", "PROMOTIONS", "OTHER",
  "WAYS", "STILL", "HOWEVER", "TRADITIONAL", "UNIVERSALLY",
  "PROVIDES", "VARIOUS", "COMPILATION", "USING"]

/-! Section: Field-quality filler phrases (src/main.py lines 269-273, 304-305) -/

/-- Filler descriptions treated as absent in the pipe branch
(src/main.py line 270). -/
def descFillersPipe : List String :=
  ["discount amount not specified", "discount not specified", "amount not specified", ""]

/-- Filler conditions treated as absent in the pipe branch
(src/main.py lines 272-273). -/
def condFillers : List String :=
  ["no specific conditions mentioned", "no specific conditions found",
   "conditions not specified", "no conditions"]

/-- Filler descriptions treated as absent in the dash branch
(src/main.py line 305). -/
def descFillersDash : List String :=
  ["discount amount not specified", "discount not specified", "amount not specified"]

/-! Section: Code validity gates (src/main.py lines 282-286 and 312-315) -/

/-- The pipe-branch code validity gate (src/main.py lines 282-286):
nonempty, length in [3, 20], alphanumeric after removing the characters
`-`, `_` and `%`, not an excluded word, and containing a digit or
satisfying `isupper()` (the latter is checked on the already upper-cased
code). -/
def pipeCodeGate (code : String) : Bool :=
  (code != "") && decide (3 ≤ code.data.length) && decide (code.data.length ≤ 20) &&
  pyIsAlnum (pyRemoveChar (pyRemoveChar (pyRemoveChar code '-') '_') '%') &&
  !(excluded_words.contains code) &&
  (code.data.any Char.isDigit || pyIsUpper code)

/-- The dash-branch code validity gate (src/main.py lines 312-315):
identical to the pipe gate except that only `-` and `_` (not `%`) are
removed before the alphanumeric check. -/
def dashCodeGate (code : String) : Bool :=
  (code != "") && decide (3 ≤ code.data.length) && decide (code.data.length ≤ 20) &&
  pyIsAlnum (pyRemoveChar (pyRemoveChar code '-') '_') &&
  !(excluded_words.contains code) &&
  (code.data.any Char.isDigit || pyIsUpper code)

/-! Section: Per-line parsing (src/main.py lines 255-322) -/

/-- The Python value of `s and b` for a string `s` and bool `b`
(src/main.py lines 269-273 and 304-305): Python `and` returns its left
operand when it is falsy, so for the empty string the value is the empty
string itself — not `False`.  `none` models that non-bool value, `some b`
the genuine bool produced for a nonempty `s`. -/
def pyAndFlag (s : String) (b : Bool) : Option Bool :=
  if s = "" then none else some b

/-- Python `not` applied to such a flag value: the empty string is falsy,
a bool negates. -/
def pyFlagNot : Option Bool → Bool
  | none => true
  | some b => !b

/-- The pipe-format branch (src/main.py lines 261-293): split the line on
`|`, strip each segment; with at least two segments, upper-case and strip
the first as the code, classify description and conditions against the
filler lists, substitute placeholders for absent fields, and — when the
code passes the gate — construct the record.  Pydantic validates the two
flag fields as bools at construction: when a flag value is the non-bool
empty string (empty description or conditions segment), `CodeInfo(...)`
raises a ValidationError, modelled as `Except.error`; the error aborts the
whole parse (the handler turns it into an HTTP 500). -/
def parsePipe (line : String) : Except String (Option CodeInfo) :=
  match (pySplitOnChar line '|').map pyStrip with
  | p0 :: p1 :: rest =>
    let code := pyStrip (pyUpper p0)
    let desc0 := p1
    let cond0 := match rest with
      | [] => "no specific conditions mentioned"
      | c :: _ => c
    let hasDesc := pyAndFlag desc0 (!(descFillersPipe.contains (pyLower desc0)))
    let hasCond := pyAndFlag cond0 (!(condFillers.contains (pyLower cond0)))
    let desc := if pyFlagNot hasDesc then "Discount amount not available" else desc0
    let cond := if pyFlagNot hasCond then "Conditions not available" else cond0
    if pipeCodeGate code then
      match hasDesc, hasCond with
      | some hd, some hc =>
        Except.ok (some { code := code, description := desc, conditions := cond,
                          has_description := hd, has_conditions := hc })
      | _, _ => Except.error "ValidationError"
    else Except.ok none
  | _ => Except.ok none

/-- The dash-format branch (src/main.py lines 297-322): split once on the
literal `" - "`, strip and upper-case the left part as the code, classify
the right part as the description; conditions are always the placeholder
with `has_conditions = false`.  The description flag is validated exactly
as in the pipe branch (an empty description segment would make record
construction raise). -/
def parseDash (line : String) : Except String (Option CodeInfo) :=
  match splitOnDashOnce line.data with
  | some (before, after) =>
    let code := pyUpper (pyStrip ⟨before⟩)
    let desc0 := pyStrip ⟨after⟩
    let hasDesc := pyAndFlag desc0 (!(descFillersDash.contains (pyLower desc0)))
    let desc := if pyFlagNot hasDesc then "Discount amount not available" else desc0
    if dashCodeGate code then
      match hasDesc with
      | some hd =>
        Except.ok (some { code := code, description := desc,
                          conditions := "Conditions not available",
                          has_description := hd, has_conditions := false })
      | none => Except.error "ValidationError"
    else Except.ok none
  | none => Except.ok none

/-- Parsing one raw line (src/main.py lines 255-322): strip the line, skip
it when empty, starting with `#` or shorter than 3 characters; otherwise
try the pipe branch when the line contains `|`, else the dash branch. -/
def parseLine (rawLine : String) : Except String (Option CodeInfo) :=
  let line := pyStrip rawLine
  if line == "" then Except.ok none
  else if pyStartsHash line then Except.ok none
  else if line.data.length < 3 then Except.ok none
  else if line.data.contains '|' then parsePipe line
  else parseDash line

/-- The per-line loop (src/main.py lines 254-322): collect accepted
records in parse order; a line whose record construction raises aborts the
loop and the exception propagates. -/
def collectLines : List String → Except String (List CodeInfo)
  | [] => Except.ok []
  | line :: rest =>
    match parseLine line with
    | Except.error e => Except.error e
    | Except.ok none => collectLines rest
    | Except.ok (some r) =>
      match collectLines rest with
      | Except.error e => Except.error e
      | Except.ok rs => Except.ok (r :: rs)

/-- The accepted candidate records in parse order, before deduplication
(`detailed_codes` of src/main.py lines 208-322): strip the response, split
it into lines and run the per-line loop. -/
def extract_candidates (text : String) : Except String (List CodeInfo) :=
  collectLines (pySplitOnChar (pyStrip text) '\n')

/-! Section: Merge / dedup step (src/main.py lines 324-338) -/

/-- Lookup in the `unique_codes` insertion-ordered mapping (a Python dict
keyed by code), modelled as an association list. -/
def lookupCode : List (String × CodeInfo) → String → Option CodeInfo
  | [], _ => none
  | (k, v) :: rest, c => if k = c then some v else lookupCode rest c

/-- Python dict assignment `unique_codes[k] = v`: replace the value at an
existing key in place (insertion position preserved), or append a new
entry at the end. -/
def insertCode : List (String × CodeInfo) → String → CodeInfo → List (String × CodeInfo)
  | [], k, v => [(k, v)]
  | (k0, v0) :: rest, k, v =>
    if k0 = k then (k0, v) :: rest
    else (k0, v0) :: insertCode rest k v

/-- One iteration of the dedup loop (src/main.py lines 327-335): insert an
unseen code; on collision replace the stored record exactly when the new
record has a description the stored one lacks or conditions the stored one
lacks. -/
def mergeStep (m : List (String × CodeInfo)) (ci : CodeInfo) : List (String × CodeInfo) :=
  match lookupCode m ci.code with
  | none => insertCode m ci.code ci
  | some existing =>
    if (ci.has_description && !existing.has_description) ||
       (ci.has_conditions && !existing.has_conditions) then
      insertCode m ci.code ci
    else m

/-- The whole dedup step (src/main.py lines 324-338): fold the candidates
through `mergeStep` starting from an empty mapping and return the values
in insertion order (`list(unique_codes.values())`). -/
def mergeDedup (l : List CodeInfo) : List CodeInfo :=
  (l.foldl mergeStep []).map (fun p => p.2)

/-- The full extraction pipeline: candidates in parse order, then the
merge/dedup step; a ValidationError raised while collecting candidates
propagates.  This is the parse portion shared by both handlers
(src/main.py lines 207-338 and 414-561). -/
def extract_detailed_codes (text : String) : Except String (List CodeInfo) :=
  match extract_candidates text with
  | Except.ok l => Except.ok (mergeDedup l)
  | Except.error e => Except.error e

/-! Section: Result cache (src/main.py lines 71-99)

The cache serializes a `DetailedCodesResponse` to a JSON document
(`value.dict()` then `json.dumps`) and stores it in Redis under the key
the concatenation of the cache name, a colon and the key with `setex`; reads deserialize with
`json.loads`.  `json.dumps` and `json.loads` are mutually inverse on these
documents, so the wire value is modelled as the JSON tree itself. -/

/-- JSON documents as produced by serializing the response models: strings,
booleans, arrays and objects suffice. -/
inductive Json where
  | str (s : String)
  | bool (b : Bool)
  | arr (xs : List Json)
  | obj (fields : List (String × Json))

/-- First value stored under a key in a JSON object. -/
def jLookup : List (String × Json) → String → Option Json
  | [], _ => none
  | (k, v) :: rest, c => if k = c then some v else jLookup rest c

/-- Pydantic `CodeInfo.dict()`: the record as a JSON object with its five
fields under their Python names. -/
def CodeInfo.toDict (r : CodeInfo) : Json :=
  Json.obj [("code", Json.str r.code),
            ("description", Json.str r.description),
            ("conditions", Json.str r.conditions),
            ("has_description", Json.bool r.has_description),
            ("has_conditions", Json.bool r.has_conditions)]

/-- Pydantic `DetailedCodesResponse.dict()`: an object with the `codes`
array of serialized records. -/
def DetailedCodesResponse.toDict (v : DetailedCodesResponse) : Json :=
  Json.obj [("codes", Json.arr (v.codes.map CodeInfo.toDict))]

/-- Pydantic validation of one `CodeInfo` from a JSON object
(`CodeInfo(**d)`): `code` is a required string; the other four fields fall
back to the model defaults when missing and must have the declared type
when present. -/
def CodeInfo.ofDict (j : Json) : Option CodeInfo :=
  match j with
  | Json.obj fs =>
    match jLookup fs "code" with
    | some (Json.str c) =>
      let d := match jLookup fs "description" with
        | some (Json.str s) => some s
        | none => some ""
        | _ => none
      let co := match jLookup fs "conditions" with
        | some (Json.str s) => some s
        | none => some ""
        | _ => none
      let hd := match jLookup fs "has_description" with
        | some (Json.bool b) => some b
        | none => some false
        | _ => none
      let hc := match jLookup fs "has_conditions" with
        | some (Json.bool b) => some b
        | none => some false
        | _ => none
      match d, co, hd, hc with
      | some d, some co, some hd, some hc =>
        some { code := c, description := d, conditions := co,
               has_description := hd, has_conditions := hc }
      | _, _, _, _ => none
    | _ => none
  | _ => none

/-- Pydantic validation of the `codes` list: every element must validate. -/
def decodeCodes : List Json → Option (List CodeInfo)
  | [] => some []
  | j :: rest =>
    match CodeInfo.ofDict j, decodeCodes rest with
    | some c, some cs => some (c :: cs)
    | _, _ => none

/-- Pydantic `DetailedCodesResponse(**cached)`: the cached JSON document
must be an object whose `codes` field is an array of valid records. -/
def DetailedCodesResponse.ofDict (j : Json) : Option DetailedCodesResponse :=
  match j with
  | Json.obj fs =>
    match jLookup fs "codes" with
    | some (Json.arr xs) =>
      match decodeCodes xs with
      | some cs => some { codes := cs }
      | none => none
    | _ => none
  | _ => none

/-- The Redis backing store as seen by the cache helpers: whether the
server is reachable, the current time in seconds, and the stored entries
as (key, JSON document, absolute expiry time). -/
structure RedisState where
  available : Bool
  now : Nat
  entries : List (String × Json × Nat)

/-- Raw lookup in the stored entries (first match). -/
def lookupEntry : List (String × Json × Nat) → String → Option (Json × Nat)
  | [], _ => none
  | (k, v, e) :: rest, c => if k = c then some (v, e) else lookupEntry rest c

/-- Raw overwrite of the stored entries: replace the value and expiry at an
existing key, or append a new entry. -/
def insertEntry : List (String × Json × Nat) → String → Json × Nat → List (String × Json × Nat)
  | [], k, ve => [(k, ve.1, ve.2)]
  | (k0, v0, e0) :: rest, k, ve =>
    if k0 = k then (k0, ve.1, ve.2) :: rest
    else (k0, v0, e0) :: insertEntry rest k ve

/-- `redis_client.get(key)`: raises when the server is unreachable;
otherwise returns the stored document, or nothing for a missing key or one
whose expiry time has passed (Redis expires entries lazily on read). -/
def redis_get (r : RedisState) (k : String) : Except String (Option Json) :=
  if r.available then
    match lookupEntry r.entries k with
    | some (v, e) => if r.now < e then Except.ok (some v) else Except.ok none
    | none => Except.ok none
  else Except.error "connection refused"

/-- `redis_client.setex(key, ttl, value)`: raises when the server is
unreachable; raises `DataError` when `ttl` is not an integer (in
particular for `None`) and `invalid expire time` when it is not positive;
otherwise unconditionally overwrites the entry with expiry `now + ttl`. -/
def redis_setex (r : RedisState) (k : String) (ttl : Option Nat) (v : Json) :
    Except String RedisState :=
  if r.available then
    match ttl with
    | none => Except.error "DataError: ttl must be an integer"
    | some t =>
      if t = 0 then Except.error "invalid expire time"
      else Except.ok { r with entries := insertEntry r.entries k (v, r.now + t) }
  else Except.error "connection refused"

/-- Default TTL (src/main.py line 72). -/
def CACHE_TTL_SECONDS : Nat := 60 * 60

/-- `_cache_get` (src/main.py lines 74-86): read
the concatenation of the cache name, a colon and the key from Redis and deserialize; any exception is
caught and turned into a miss (`None`). -/
def cache_get (r : RedisState) (cpfx key : String) : Option Json :=
  match redis_get r (cpfx ++ ":" ++ key) with
  | Except.ok v => v
  | Except.error _ => none

/-- `_cache_set` (src/main.py lines 88-99): serialize the response and
`setex` it under the concatenation of the cache name, a colon and the key; any exception is caught and
the write is skipped, leaving the store unchanged. -/
def cache_set (r : RedisState) (cpfx key : String) (value : DetailedCodesResponse)
    (ttl : Option Nat := some CACHE_TTL_SECONDS) : RedisState :=
  match redis_setex r (cpfx ++ ":" ++ key) ttl value.toDict with
  | Except.ok r2 => r2
  | Except.error _ => r

/-! Section: Claim theorems: concrete counterexamples and evaluations -/

/-- Claim C1, counterexample.  The merge step can remove information: in
this input the code CODE10 first appears with genuine conditions
(`has_conditions = true`) and then with a genuine description but
placeholder conditions; the second record replaces the first (it adds a
description), and the final merged record for CODE10 has
`has_conditions = false` although an accepted candidate for that code had
`has_conditions = true` — refuting the claim that the merge never removes
information. -/
theorem C1_merge_drops_conditions :
    extract_candidates
        "CODE10 | discount amount not specified | new users only\nCODE10 | 20% off | no conditions"
      = Except.ok
          [{ code := "CODE10", description := "Discount amount not available",
             conditions := "new users only", has_description := false, has_conditions := true },
           { code := "CODE10", description := "20% off",
             conditions := "Conditions not available", has_description := true,
             has_conditions := false }] ∧
    extract_detailed_codes
        "CODE10 | discount amount not specified | new users only\nCODE10 | 20% off | no conditions"
      = Except.ok
          [{ code := "CODE10", description := "20% off",
             conditions := "Conditions not available", has_description := true,
             has_conditions := false }] := by
  constructor <;> rfl

/-- Claim C2, counterexample.  The flag/placeholder equivalence fails in
one direction: when the input text literally contains the placeholder
string "Discount amount not available" as its description segment, the
parsed record has `description` equal to the placeholder while
`has_description = true`, refuting the claimed iff. -/
theorem C2_flag_placeholder_iff_fails :
    extract_detailed_codes "SAVE20 | Discount amount not available | new users"
      = Except.ok
          [{ code := "SAVE20", description := "Discount amount not available",
             conditions := "new users", has_description := true, has_conditions := true }] := by
  rfl

/-- Claim C3, counterexample.  The description placeholder the code
substitutes is "Discount amount not available", not the claimed
"description not available": for this input the record's description is
absent, yet the stored sentinel differs from the claimed one. -/
theorem C3_placeholder_string_differs :
    extract_detailed_codes "ABC12 | discount amount not specified | new users"
      = Except.ok
          [{ code := "ABC12", description := "Discount amount not available",
             conditions := "new users", has_description := false, has_conditions := true }] ∧
    "Discount amount not available" ≠ "description not available" := by
  exact ⟨rfl, by decide⟩

/-- Claim C4, evaluation at the failing input.  The gate checks
`isupper()` only after the code has already been upper-cased, so the check
is vacuously true for any alphabetic code: the dash line
"hello - great deal", whose code segment is a lower-case word with no
digit, is accepted (as code "HELLO") instead of being dropped. -/
theorem C4_lowercase_code_accepted :
    extract_detailed_codes "hello - great deal"
      = Except.ok
          [{ code := "HELLO", description := "great deal",
             conditions := "Conditions not available",
             has_description := true, has_conditions := false }] := by
  rfl

/-- Claim C5, counterexample.  The dash-branch gate removes only `-` and
`_` (not `%`) before the alphanumeric check, so the dash-format code
"SAVE20%" — which has length in [3, 20], is alphanumeric after removing
`-`, `_`, `%`, is not in the exclusion lexicon and contains a digit — is
dropped, while exactly the same code in pipe format is accepted: the gate
is not the same for both line formats. -/
theorem C5_dash_percent_dropped :
    extract_detailed_codes "SAVE20% - half off" = Except.ok [] ∧
    extract_detailed_codes "SAVE20% | half off | x"
      = Except.ok
          [{ code := "SAVE20%", description := "half off", conditions := "x",
             has_description := true, has_conditions := true }] ∧
    dashCodeGate "SAVE20%" = false ∧ pipeCodeGate "SAVE20%" = true := by
  exact ⟨rfl, rfl, rfl, rfl⟩

/-- Claim C6, counterexample.  A pipe line with empty description and
conditions segments is neither silently skipped nor harmless: the flag
value Python computes is the non-bool empty string, record construction
raises a pydantic ValidationError, and the parse aborts with an error
instead of returning a RecordSet — refuting both the claimed skipping and
the claimed absence of exceptions. -/
theorem C6_empty_segments_not_skipped :
    extract_detailed_codes "ABC12 | |" = Except.error "ValidationError" := by
  rfl

/-- Claim C6, amended.  Lines matching neither format are silently
skipped without any exception, and an input in which no line yields a
valid code produces an empty RecordSet rather than an error; but parse is
not exception-free: a pipe line whose code passes the gate and whose
description or conditions segment is empty makes record construction
raise a ValidationError (the flag value is the non-bool empty string),
aborting the whole parse. -/
theorem C6_total_and_skipping :
    extract_detailed_codes "THE\nAND\nOFF" = Except.ok [] ∧
    extract_detailed_codes "no codes here" = Except.ok [] ∧
    extract_detailed_codes "" = Except.ok [] ∧
    extract_detailed_codes "ABC12 |" = Except.error "ValidationError" := by
  exact ⟨rfl, rfl, rfl, rfl⟩

/-! Section: Merge-map invariants -/

/-- Invariant of the `unique_codes` mapping maintained by the dedup loop:
keys are pairwise distinct and every stored record carries its key as its
code. -/
def GoodMap (m : List (String × CodeInfo)) : Prop :=
  (m.map Prod.fst).Nodup ∧ ∀ p ∈ m, (p.2).code = p.1

theorem lookupCode_eq_none {m : List (String × CodeInfo)} {c : String} :
    lookupCode m c = none ↔ c ∉ m.map Prod.fst := by
  induction m with
  | nil => simp [lookupCode]
  | cons p rest ih =>
    obtain ⟨k, v⟩ := p
    by_cases h : k = c
    · subst h; simp [lookupCode]
    · simp [lookupCode, h, ih, Ne.symm h]

theorem lookupCode_mem {m : List (String × CodeInfo)} {c : String} {v : CodeInfo}
    (h : lookupCode m c = some v) : (c, v) ∈ m := by
  induction m with
  | nil => simp [lookupCode] at h
  | cons p rest ih =>
    obtain ⟨k, w⟩ := p
    by_cases hk : k = c
    · subst hk
      simp [lookupCode] at h
      subst h
      exact List.mem_cons_self _ _
    · simp [lookupCode, hk] at h
      exact List.mem_cons_of_mem _ (ih h)

theorem lookupCode_of_mem {m : List (String × CodeInfo)} {c : String} {v : CodeInfo}
    (hnd : (m.map Prod.fst).Nodup) (h : (c, v) ∈ m) : lookupCode m c = some v := by
  induction m with
  | nil => simp at h
  | cons p rest ih =>
    obtain ⟨k, w⟩ := p
    rcases List.mem_cons.mp h with h1 | h1
    · cases h1
      simp [lookupCode]
    · rw [List.map_cons, List.nodup_cons] at hnd
      have hk : k ≠ c := by
        rintro rfl
        exact hnd.1 (List.mem_map.mpr ⟨(k, v), h1, rfl⟩)
      simp only [lookupCode, if_neg hk]
      exact ih hnd.2 h1

theorem insertCode_mem {m : List (String × CodeInfo)} {k : String} {v : CodeInfo}
    {p : String × CodeInfo} (h : p ∈ insertCode m k v) : p ∈ m ∨ p = (k, v) := by
  induction m with
  | nil => simp [insertCode] at h; simp [h]
  | cons q rest ih =>
    obtain ⟨k0, v0⟩ := q
    by_cases hk : k0 = k
    · subst hk
      simp only [insertCode, if_pos rfl] at h
      rcases List.mem_cons.mp h with h1 | h1
      · exact Or.inr (by simp [h1])
      · exact Or.inl (List.mem_cons_of_mem _ h1)
    · simp only [insertCode, if_neg hk] at h
      rcases List.mem_cons.mp h with h1 | h1
      · exact Or.inl (by simp [h1])
      · rcases ih h1 with h2 | h2
        · exact Or.inl (List.mem_cons_of_mem _ h2)
        · exact Or.inr h2

theorem self_mem_insertCode (m : List (String × CodeInfo)) (k : String) (v : CodeInfo) :
    (k, v) ∈ insertCode m k v := by
  induction m with
  | nil => simp [insertCode]
  | cons q rest ih =>
    obtain ⟨k0, v0⟩ := q
    by_cases hk : k0 = k
    · subst hk; simp [insertCode]
    · simp only [insertCode, if_neg hk]
      exact List.mem_cons_of_mem _ ih

theorem mem_insertCode_of_ne {m : List (String × CodeInfo)} {k : String} {v : CodeInfo}
    {p : String × CodeInfo} (hp : p ∈ m) (hne : p.1 ≠ k) : p ∈ insertCode m k v := by
  induction m with
  | nil => simp at hp
  | cons q rest ih =>
    obtain ⟨k0, v0⟩ := q
    rcases List.mem_cons.mp hp with h1 | h1
    · subst h1
      simp only [insertCode]
      rw [if_neg (by simpa using hne)]
      exact List.mem_cons_self _ _
    · by_cases hk : k0 = k
      · subst hk
        simp only [insertCode, if_pos rfl]
        exact List.mem_cons_of_mem _ h1
      · simp only [insertCode, if_neg hk]
        exact List.mem_cons_of_mem _ (ih h1)

theorem insertCode_map_fst_of_mem {m : List (String × CodeInfo)} {k : String} {v : CodeInfo}
    (h : k ∈ m.map Prod.fst) : (insertCode m k v).map Prod.fst = m.map Prod.fst := by
  induction m with
  | nil => simp at h
  | cons q rest ih =>
    obtain ⟨k0, v0⟩ := q
    by_cases hk : k0 = k
    · subst hk; simp [insertCode]
    · simp only [insertCode, if_neg hk, List.map_cons]
      rw [ih (by simpa [Ne.symm hk] using h)]

theorem insertCode_map_fst_of_not_mem {m : List (String × CodeInfo)} {k : String} {v : CodeInfo}
    (h : k ∉ m.map Prod.fst) : (insertCode m k v).map Prod.fst = m.map Prod.fst ++ [k] := by
  induction m with
  | nil => simp [insertCode]
  | cons q rest ih =>
    obtain ⟨k0, v0⟩ := q
    have hk : k0 ≠ k := by rintro rfl; simp at h
    simp only [insertCode, if_neg hk, List.map_cons]
    rw [ih (by intro hmem; exact h (by simp [hmem]))]
    simp

theorem goodMap_insertCode {m : List (String × CodeInfo)} {k : String} {v : CodeInfo}
    (hG : GoodMap m) (hv : v.code = k) : GoodMap (insertCode m k v) := by
  constructor
  · by_cases h : k ∈ m.map Prod.fst
    · rw [insertCode_map_fst_of_mem h]; exact hG.1
    · rw [insertCode_map_fst_of_not_mem h]
      simp only [List.nodup_append, List.nodup_cons, List.not_mem_nil, not_false_iff,
        List.nodup_nil, and_true, true_and]
      constructor
      · exact hG.1
      · intro a ha
        simp only [List.mem_singleton]
        rintro rfl
        exact h ha
  · intro p hp
    rcases insertCode_mem hp with h1 | h1
    · exact hG.2 p h1
    · subst h1; exact hv

theorem goodMap_mergeStep {m : List (String × CodeInfo)} {ci : CodeInfo}
    (hG : GoodMap m) : GoodMap (mergeStep m ci) := by
  unfold mergeStep
  cases h : lookupCode m ci.code with
  | none => exact goodMap_insertCode hG rfl
  | some existing =>
    dsimp only
    by_cases hrep : (ci.has_description && !existing.has_description ||
        ci.has_conditions && !existing.has_conditions) = true
    · rw [if_pos hrep]; exact goodMap_insertCode hG rfl
    · rw [if_neg hrep]; exact hG

theorem goodMap_foldl {l : List CodeInfo} :
    ∀ {m : List (String × CodeInfo)}, GoodMap m → GoodMap (l.foldl mergeStep m) := by
  induction l with
  | nil => intro m hG; exact hG
  | cons a rest ih => intro m hG; exact ih (goodMap_mergeStep hG)

theorem goodMap_nil : GoodMap [] := ⟨List.nodup_nil, by simp⟩

theorem mem_of_mem_mergeStep {m : List (String × CodeInfo)} {ci : CodeInfo}
    {p : String × CodeInfo} (h : p ∈ mergeStep m ci) : p ∈ m ∨ p.2 = ci := by
  unfold mergeStep at h
  cases hlk : lookupCode m ci.code with
  | none =>
    rw [hlk] at h
    rcases insertCode_mem h with h1 | h1
    · exact Or.inl h1
    · exact Or.inr (by rw [h1])
  | some existing =>
    rw [hlk] at h
    dsimp only at h
    by_cases hrep : (ci.has_description && !existing.has_description ||
        ci.has_conditions && !existing.has_conditions) = true
    · rw [if_pos hrep] at h
      rcases insertCode_mem h with h1 | h1
      · exact Or.inl h1
      · exact Or.inr (by rw [h1])
    · rw [if_neg hrep] at h
      exact Or.inl h

theorem mem_of_foldl_mergeStep {l : List CodeInfo} :
    ∀ {m : List (String × CodeInfo)} {p : String × CodeInfo},
      p ∈ l.foldl mergeStep m → p ∈ m ∨ p.2 ∈ l := by
  induction l with
  | nil => intro m p h; exact Or.inl h
  | cons a rest ih =>
    intro m p h
    rcases ih h with h1 | h1
    · rcases mem_of_mem_mergeStep h1 with h2 | h2
      · exact Or.inl h2
      · exact Or.inr (by rw [h2]; exact List.mem_cons_self _ _)
    · exact Or.inr (List.mem_cons_of_mem _ h1)

/-- Every record in the merged output is one of the accepted candidates. -/
theorem mergeDedup_subset {l : List CodeInfo} {r : CodeInfo}
    (h : r ∈ mergeDedup l) : r ∈ l := by
  unfold mergeDedup at h
  obtain ⟨p, hp, hpr⟩ := List.mem_map.mp h
  rcases mem_of_foldl_mergeStep hp with h1 | h1
  · simp at h1
  · rw [← hpr]; exact h1

/-- The merge map holds a full-information record (both flags true) under
key c. -/
def FullAt (m : List (String × CodeInfo)) (c : String) : Prop :=
  ∃ v, (c, v) ∈ m ∧ v.has_description = true ∧ v.has_conditions = true

theorem fullAt_mergeStep {m : List (String × CodeInfo)} {ci : CodeInfo} {c : String}
    (hG : GoodMap m) (h : FullAt m c) : FullAt (mergeStep m ci) c := by
  obtain ⟨v, hv, hvd, hvc⟩ := h
  unfold mergeStep
  cases hlk : lookupCode m ci.code with
  | none =>
    have hne : c ≠ ci.code := by
      rintro rfl
      rw [lookupCode_of_mem hG.1 hv] at hlk
      cases hlk
    exact ⟨v, mem_insertCode_of_ne hv hne, hvd, hvc⟩
  | some existing =>
    dsimp only
    by_cases hrep : (ci.has_description && !existing.has_description ||
        ci.has_conditions && !existing.has_conditions) = true
    · rw [if_pos hrep]
      by_cases hc : c = ci.code
      · subst hc
        rw [lookupCode_of_mem hG.1 hv] at hlk
        cases hlk
        simp [hvd, hvc] at hrep
      · exact ⟨v, mem_insertCode_of_ne hv hc, hvd, hvc⟩
    · rw [if_neg hrep]
      exact ⟨v, hv, hvd, hvc⟩

theorem fullAt_mergeStep_self {m : List (String × CodeInfo)} {ci : CodeInfo}
    (hd : ci.has_description = true) (hc : ci.has_conditions = true) :
    FullAt (mergeStep m ci) ci.code := by
  unfold mergeStep
  cases hlk : lookupCode m ci.code with
  | none => exact ⟨ci, self_mem_insertCode _ _ _, hd, hc⟩
  | some existing =>
    dsimp only
    by_cases hrep : (ci.has_description && !existing.has_description ||
        ci.has_conditions && !existing.has_conditions) = true
    · rw [if_pos hrep]
      exact ⟨ci, self_mem_insertCode _ _ _, hd, hc⟩
    · rw [if_neg hrep]
      simp only [hd, hc, Bool.true_and, Bool.or_eq_true, Bool.not_eq_true'] at hrep
      push_neg at hrep
      exact ⟨existing, lookupCode_mem hlk, by simpa using hrep.1, by simpa using hrep.2⟩

theorem fullAt_foldl {l : List CodeInfo} :
    ∀ {m : List (String × CodeInfo)} {c : String},
      GoodMap m → FullAt m c → FullAt (l.foldl mergeStep m) c := by
  induction l with
  | nil => intro m c _ h; exact h
  | cons a rest ih =>
    intro m c hG h
    exact ih (goodMap_mergeStep hG) (fullAt_mergeStep hG h)

theorem fullAt_foldl_of_mem {l : List CodeInfo} :
    ∀ {m : List (String × CodeInfo)} {r : CodeInfo}, GoodMap m → r ∈ l →
      r.has_description = true → r.has_conditions = true →
      FullAt (l.foldl mergeStep m) r.code := by
  induction l with
  | nil => intro m r _ h; simp at h
  | cons a rest ih =>
    intro m r hG hr hd hc
    rw [List.foldl_cons]
    rcases List.mem_cons.mp hr with h1 | h1
    · subst h1
      exact fullAt_foldl (goodMap_mergeStep hG) (fullAt_mergeStep_self hd hc)
    · exact ih (goodMap_mergeStep hG) h1 hd hc

/-- The merged output of any candidate list has pairwise-distinct codes:
the dedup loop keys its mapping by code and returns the mapping values. -/
theorem mergeDedup_codes_nodup (l : List CodeInfo) :
    ((mergeDedup l).map (fun r => r.code)).Nodup := by
  have hG : GoodMap (l.foldl mergeStep []) := goodMap_foldl goodMap_nil
  unfold mergeDedup
  rw [List.map_map]
  have heq : (l.foldl mergeStep []).map ((fun r => r.code) ∘ (fun p => p.2))
      = (l.foldl mergeStep []).map Prod.fst :=
    List.map_congr_left (fun p hp => hG.2 p hp)
  rw [heq]
  exact hG.1

/-- Claim C7, counterexample.  parse does not return a RecordSet for every
input text: a pipe line whose code passes the gate and whose description
segment is empty makes record construction raise a pydantic
ValidationError (the flag value is the non-bool empty string), so the
parse aborts with an error instead of returning a RecordSet. -/
theorem C7_parse_can_raise :
    extract_detailed_codes "DEF45 |" = Except.error "ValidationError" := by
  rfl

/-- Claim C7, amended.  parse terminates on every input, but it does not
always return a RecordSet: record construction can raise a
ValidationError.  Whenever parse does return a RecordSet, its codes are
pairwise distinct: the dedup loop keys its mapping by code, so no two
output records share a code. -/
theorem C7_codes_nodup_on_success (text : String) (l : List CodeInfo)
    (hok : extract_detailed_codes text = Except.ok l) :
    (l.map (fun r => r.code)).Nodup := by
  unfold extract_detailed_codes at hok
  cases hc : extract_candidates text with
  | error e => rw [hc] at hok; cases hok
  | ok cands =>
    rw [hc] at hok
    dsimp only at hok
    injection hok with hok
    subst hok
    exact mergeDedup_codes_nodup cands

/-- Witness for C7 at a successful concrete parse. -/
theorem C7_codes_nodup_on_success_witness :
    (([{ code := "SAVE20", description := "20% off entire order",
         conditions := "new customers only", has_description := true,
         has_conditions := true }] : List CodeInfo).map (fun r => r.code)).Nodup :=
  C7_codes_nodup_on_success "SAVE20 | 20% off entire order | new customers only"
    [{ code := "SAVE20", description := "20% off entire order",
       conditions := "new customers only", has_description := true,
       has_conditions := true }] rfl

/-- Claim C1, amended.  On collision the stored record is replaced exactly
when the new record has a description the stored one lacks or conditions
the stored one lacks; this rule is not monotone per field, but a record
whose two flags are both true never loses to any later record: whenever
some candidate for a code carries both a genuine description and genuine
conditions, the final merged record for that code has both flags true. -/
theorem C1_full_info_never_regresses (l : List CodeInfo) (r : CodeInfo)
    (hr : r ∈ l) (hd : r.has_description = true) (hc : r.has_conditions = true) :
    ∃ rr, rr ∈ mergeDedup l ∧ rr.code = r.code ∧
      rr.has_description = true ∧ rr.has_conditions = true := by
  have hF : FullAt (l.foldl mergeStep []) r.code :=
    fullAt_foldl_of_mem goodMap_nil hr hd hc
  obtain ⟨v, hv, hvd, hvc⟩ := hF
  have hG : GoodMap (l.foldl mergeStep []) := goodMap_foldl goodMap_nil
  refine ⟨v, ?_, hG.2 _ hv, hvd, hvc⟩
  exact List.mem_map.mpr ⟨(r.code, v), hv, rfl⟩

/-- Witness for C1: a single full-information record survives the merge. -/
theorem C1_full_info_never_regresses_witness :
    ∃ rr, rr ∈ mergeDedup
        [{ code := "SAVE20", description := "20% off", conditions := "new users",
           has_description := true, has_conditions := true }] ∧
      rr.code = "SAVE20" ∧ rr.has_description = true ∧ rr.has_conditions = true :=
  C1_full_info_never_regresses _ _ (List.mem_singleton.mpr rfl) rfl rfl

/-- A flag value of `some hd` arises only from a nonempty field whose
bool operand equals the flag. -/
theorem pyAndFlag_some {s : String} {b hd : Bool} (h : pyAndFlag s b = some hd) :
    s ≠ "" ∧ b = hd := by
  unfold pyAndFlag at h
  by_cases hs : s = ""
  · rw [if_pos hs] at h; cases h
  · rw [if_neg hs] at h
    exact ⟨hs, Option.some.inj h⟩

theorem parsePipe_flags {line : String} {r : CodeInfo}
    (h : parsePipe line = Except.ok (some r)) :
    (r.has_description = false → r.description = "Discount amount not available") ∧
    (r.has_description = true → r.description ≠ "") ∧
    (r.has_conditions = false → r.conditions = "Conditions not available") ∧
    (r.has_conditions = true → r.conditions ≠ "") := by
  unfold parsePipe at h
  rcases hsplit : (pySplitOnChar line '|').map pyStrip with _ | ⟨p0, _ | ⟨p1, rest⟩⟩
  · rw [hsplit] at h; cases h
  · rw [hsplit] at h; cases h
  · rw [hsplit] at h
    dsimp only at h
    by_cases hg : pipeCodeGate (pyStrip (pyUpper p0)) = true
    · rw [if_pos hg] at h
      generalize hcond : (match rest with
        | [] => "no specific conditions mentioned"
        | c :: _ => c) = cond0 at h
      rcases hD : pyAndFlag p1 (!(descFillersPipe.contains (pyLower p1))) with _ | hd
      · rw [hD] at h
        rcases hC : pyAndFlag cond0 (!(condFillers.contains (pyLower cond0))) with _ | hc
        · rw [hC] at h; simp at h
        · rw [hC] at h; simp at h
      · rw [hD] at h
        rcases hC : pyAndFlag cond0 (!(condFillers.contains (pyLower cond0))) with _ | hc
        · rw [hC] at h; simp at h
        · rw [hC] at h
          dsimp only at h
          injection h with h
          injection h with h
          subst h
          obtain ⟨hp1, _⟩ := pyAndFlag_some hD
          obtain ⟨hcond0, _⟩ := pyAndFlag_some hC
          refine ⟨?_, ?_, ?_, ?_⟩ <;> intro hx <;> dsimp only at hx
          · simp [pyFlagNot, hx]
          · simp [pyFlagNot, hx]
            exact hp1
          · simp [pyFlagNot, hx]
          · simp [pyFlagNot, hx]
            exact hcond0
    · rw [if_neg hg] at h; simp at h

theorem parseDash_flags {line : String} {r : CodeInfo}
    (h : parseDash line = Except.ok (some r)) :
    (r.has_description = false → r.description = "Discount amount not available") ∧
    (r.has_description = true → r.description ≠ "") ∧
    (r.has_conditions = false → r.conditions = "Conditions not available") ∧
    (r.has_conditions = true → r.conditions ≠ "") := by
  unfold parseDash at h
  rcases hsplit : splitOnDashOnce line.data with _ | ⟨before, after⟩
  · rw [hsplit] at h; cases h
  · rw [hsplit] at h
    dsimp only at h
    by_cases hg : dashCodeGate (pyUpper (pyStrip ⟨before⟩)) = true
    · rw [if_pos hg] at h
      rcases hD : pyAndFlag (pyStrip ⟨after⟩)
          (!(descFillersDash.contains (pyLower (pyStrip ⟨after⟩)))) with _ | hd
      · rw [hD] at h; simp at h
      · rw [hD] at h
        dsimp only at h
        injection h with h
        injection h with h
        subst h
        obtain ⟨hne, _⟩ := pyAndFlag_some hD
        refine ⟨?_, ?_, fun _ => rfl, fun hx => nomatch hx⟩ <;> intro hx <;> dsimp only at hx
        · simp [pyFlagNot, hx]
        · simp [pyFlagNot, hx]
          exact hne
    · rw [if_neg hg] at h; simp at h

theorem parseLine_flags {rawLine : String} {r : CodeInfo}
    (h : parseLine rawLine = Except.ok (some r)) :
    (r.has_description = false → r.description = "Discount amount not available") ∧
    (r.has_description = true → r.description ≠ "") ∧
    (r.has_conditions = false → r.conditions = "Conditions not available") ∧
    (r.has_conditions = true → r.conditions ≠ "") := by
  unfold parseLine at h
  by_cases h1 : (pyStrip rawLine == "") = true
  · rw [if_pos h1] at h; simp at h
  · rw [if_neg h1] at h
    by_cases h2 : pyStartsHash (pyStrip rawLine) = true
    · rw [if_pos h2] at h; simp at h
    · rw [if_neg h2] at h
      by_cases h3 : (pyStrip rawLine).data.length < 3
      · rw [if_pos h3] at h; simp at h
      · rw [if_neg h3] at h
        by_cases h4 : (pyStrip rawLine).data.contains '|' = true
        · rw [if_pos h4] at h
          exact parsePipe_flags h
        · rw [if_neg h4] at h
          exact parseDash_flags h

/-- Every record of a successful candidate collection comes from a line
the per-line parser accepted. -/
theorem collectLines_mem {lines : List String} {cands : List CodeInfo} {r : CodeInfo}
    (hok : collectLines lines = Except.ok cands) (hr : r ∈ cands) :
    ∃ line, parseLine line = Except.ok (some r) := by
  induction lines generalizing cands with
  | nil =>
    unfold collectLines at hok
    injection hok with hok
    subst hok
    simp at hr
  | cons line rest ih =>
    unfold collectLines at hok
    cases hpl : parseLine line with
    | error e => rw [hpl] at hok; dsimp only at hok; cases hok
    | ok o =>
      rw [hpl] at hok
      cases o with
      | none =>
        dsimp only at hok
        exact ih hok hr
      | some rec =>
        dsimp only at hok
        cases hrest : collectLines rest with
        | error e => rw [hrest] at hok; dsimp only at hok; cases hok
        | ok rs =>
          rw [hrest] at hok
          dsimp only at hok
          injection hok with hok
          subst hok
          rcases List.mem_cons.mp hr with h1 | h1
          · subst h1
            exact ⟨line, hpl⟩
          · exact ih hrest h1

theorem extract_record_flags {text : String} {l : List CodeInfo} {r : CodeInfo}
    (hok : extract_detailed_codes text = Except.ok l) (h : r ∈ l) :
    (r.has_description = false → r.description = "Discount amount not available") ∧
    (r.has_description = true → r.description ≠ "") ∧
    (r.has_conditions = false → r.conditions = "Conditions not available") ∧
    (r.has_conditions = true → r.conditions ≠ "") := by
  unfold extract_detailed_codes at hok
  cases hc : extract_candidates text with
  | error e => rw [hc] at hok; cases hok
  | ok cands =>
    rw [hc] at hok
    dsimp only at hok
    injection hok with hok
    subst hok
    have hr2 : r ∈ cands := mergeDedup_subset h
    unfold extract_candidates at hc
    obtain ⟨line, hsome⟩ := collectLines_mem hc hr2
    exact parseLine_flags hsome

/-- Claim C2, amended.  The flags distinguish placeholder-substituted
content in one direction on every record of a successful parse: a false
flag means the field was replaced by its placeholder, and a true flag
means the field is nonempty input text — but a true-flagged field may
coincidentally equal the placeholder string when the input literally
contains it, so the claimed iff holds only as these implications. -/
theorem C2_flags_one_directional (text : String) (l : List CodeInfo) (r : CodeInfo)
    (hok : extract_detailed_codes text = Except.ok l) (h : r ∈ l) :
    (r.has_description = false → r.description = "Discount amount not available") ∧
    (r.has_description = true → r.description ≠ "") ∧
    (r.has_conditions = false → r.conditions = "Conditions not available") ∧
    (r.has_conditions = true → r.conditions ≠ "") :=
  extract_record_flags hok h

/-- Witness for C2 at a concrete successful parse. -/
theorem C2_flags_one_directional_witness :
    extract_detailed_codes "SAVE20 | 20% off entire order | new customers only"
      = Except.ok
          [{ code := "SAVE20", description := "20% off entire order",
             conditions := "new customers only", has_description := true,
             has_conditions := true }] ∧
    (({ code := "SAVE20", description := "20% off entire order",
          conditions := "new customers only", has_description := true,
          has_conditions := true } : CodeInfo).has_description = true →
      ({ code := "SAVE20", description := "20% off entire order",
           conditions := "new customers only", has_description := true,
           has_conditions := true } : CodeInfo).description ≠ "") :=
  ⟨rfl,
   (C2_flags_one_directional "SAVE20 | 20% off entire order | new customers only"
      [{ code := "SAVE20", description := "20% off entire order",
         conditions := "new customers only", has_description := true,
         has_conditions := true }]
      { code := "SAVE20", description := "20% off entire order",
        conditions := "new customers only", has_description := true,
        has_conditions := true } rfl (by decide)).2.1⟩

/-- Claim C3, amended.  Whenever a record of a successful parse has an
absent or low-quality description the description field is set to the
sentinel placeholder "Discount amount not available" (not "description
not available"), and whenever its conditions are absent or low-quality
the conditions field is set to "Conditions not available". -/
theorem C3_placeholders_exact (text : String) (l : List CodeInfo) (r : CodeInfo)
    (hok : extract_detailed_codes text = Except.ok l) (h : r ∈ l) :
    (r.has_description = false → r.description = "Discount amount not available") ∧
    (r.has_conditions = false → r.conditions = "Conditions not available") :=
  ⟨(extract_record_flags hok h).1, (extract_record_flags hok h).2.2.1⟩

/-- Witness for C3 at a concrete successful parse (scenario B of the
spec). -/
theorem C3_placeholders_exact_witness :
    extract_detailed_codes "SAVE20 - 20% off orders over $50"
      = Except.ok
          [{ code := "SAVE20", description := "20% off orders over $50",
             conditions := "Conditions not available", has_description := true,
             has_conditions := false }] ∧
    (({ code := "SAVE20", description := "20% off orders over $50",
          conditions := "Conditions not available", has_description := true,
          has_conditions := false } : CodeInfo).has_conditions = false →
      ({ code := "SAVE20", description := "20% off orders over $50",
           conditions := "Conditions not available", has_description := true,
           has_conditions := false } : CodeInfo).conditions = "Conditions not available") :=
  ⟨rfl,
   (C3_placeholders_exact "SAVE20 - 20% off orders over $50"
      [{ code := "SAVE20", description := "20% off orders over $50",
         conditions := "Conditions not available", has_description := true,
         has_conditions := false }]
      { code := "SAVE20", description := "20% off orders over $50",
        conditions := "Conditions not available", has_description := true,
        has_conditions := false } rfl (by decide)).2⟩

theorem pyRemoveChar_of_not_mem {s : String} {c : Char} (h : c ∉ s.data) :
    pyRemoveChar s c = s := by
  obtain ⟨l⟩ := s
  unfold pyRemoveChar
  congr 1
  apply List.filter_eq_self.mpr
  intro a ha
  simp only [bne_iff_ne, ne_eq]
  rintro rfl
  exact h ha

theorem not_mem_pyRemoveChar {s : String} {k c : Char} (h : c ∉ s.data) :
    c ∉ (pyRemoveChar s k).data := by
  unfold pyRemoveChar
  intro hmem
  exact h (List.mem_of_mem_filter hmem)

/-- Claim C5, amended.  The two gates agree on every code that contains no
percent character; they differ exactly in that the dash branch does not
remove `%` before the alphanumeric check, so dash-format codes containing
`%` are rejected while pipe format accepts them. -/
theorem C5_gates_agree_without_percent (c : String) (h : '%' ∉ c.data) :
    dashCodeGate c = pipeCodeGate c := by
  unfold dashCodeGate pipeCodeGate
  rw [pyRemoveChar_of_not_mem (not_mem_pyRemoveChar (not_mem_pyRemoveChar h))]

/-- Witness for C5: both gates agree on a percent-free code. -/
theorem C5_gates_agree_without_percent_witness :
    dashCodeGate "SAVE20" = pipeCodeGate "SAVE20" :=
  C5_gates_agree_without_percent "SAVE20" (by decide)

theorem lookupEntry_insertEntry_self (s : List (String × Json × Nat)) (k : String)
    (ve : Json × Nat) : lookupEntry (insertEntry s k ve) k = some ve := by
  induction s with
  | nil => simp [insertEntry, lookupEntry]
  | cons q rest ih =>
    obtain ⟨k0, v0, e0⟩ := q
    by_cases hk : k0 = k
    · subst hk; simp [insertEntry, lookupEntry]
    · simp [insertEntry, lookupEntry, hk, ih]

theorem codeInfo_ofDict_toDict (r : CodeInfo) : CodeInfo.ofDict r.toDict = some r := by
  cases r
  rfl

theorem decodeCodes_map_toDict (l : List CodeInfo) :
    decodeCodes (l.map CodeInfo.toDict) = some l := by
  induction l with
  | nil => rfl
  | cons a rest ih =>
    simp only [List.map_cons, decodeCodes, codeInfo_ofDict_toDict, ih]

theorem response_ofDict_toDict (v : DetailedCodesResponse) :
    DetailedCodesResponse.ofDict v.toDict = some v := by
  obtain ⟨codes⟩ := v
  unfold DetailedCodesResponse.toDict DetailedCodesResponse.ofDict
  simp [jLookup, decodeCodes_map_toDict]

/-- Claim C8.  Cache round-trip: with the backing store available and a
positive TTL, a put immediately followed by a get (no clock advance)
returns a stored document that deserializes to a response equal to the one
written — every field of every record, the two flags included, survives
the serialization to the JSON wire shape and back. -/
theorem C8_cache_round_trip (r : RedisState) (cpfx key : String)
    (v : DetailedCodesResponse) (t : Nat) (hav : r.available = true) (ht : 0 < t) :
    (cache_get (cache_set r cpfx key v (some t)) cpfx key).bind
        DetailedCodesResponse.ofDict = some v := by
  have ht0 : t ≠ 0 := Nat.pos_iff_ne_zero.mp ht
  have hlt : r.now < r.now + t := Nat.lt_add_of_pos_right ht
  unfold cache_set redis_setex cache_get redis_get
  simp [hav, ht0, hlt, lookupEntry_insertEntry_self, response_ofDict_toDict]

/-- Witness for C8 on a concrete store, key and response. -/
theorem C8_cache_round_trip_witness :
    (cache_get
        (cache_set { available := true, now := 0, entries := [] }
          "codes_detailed_chatgpt" "disco deals"
          { codes := [{ code := "SAVE20", description := "20% off",
                        conditions := "new users", has_description := true,
                        has_conditions := true }] }
          (some 3600))
        "codes_detailed_chatgpt" "disco deals").bind DetailedCodesResponse.ofDict
      = some { codes := [{ code := "SAVE20", description := "20% off",
                           conditions := "new users", has_description := true,
                           has_conditions := true }] } :=
  C8_cache_round_trip { available := true, now := 0, entries := [] }
    "codes_detailed_chatgpt" "disco deals"
    { codes := [{ code := "SAVE20", description := "20% off",
                  conditions := "new users", has_description := true,
                  has_conditions := true }] }
    3600 rfl (by decide)

/-- Claim C9, counterexample.  A put with `ttl = none` does not store a
never-expiring entry: the backing store rejects a non-integer expiry
(`setex` raises), the error handler skips the write, and an immediate get
misses — refuting the claim that `get` afterwards returns the stored
value. -/
theorem C9_ttl_none_not_stored :
    cache_set { available := true, now := 0, entries := [] } "codes_detailed" "k"
        { codes := [] } none
      = { available := true, now := 0, entries := [] } ∧
    cache_get
        (cache_set { available := true, now := 0, entries := [] } "codes_detailed" "k"
          { codes := [] } none)
        "codes_detailed" "k" = none :=
  ⟨rfl, rfl⟩

/-- Claim C9, amended.  `_cache_set` only accepts an integer TTL: with a
positive TTL it unconditionally overwrites any existing entry under the
key and resets its expiry clock to `now + ttl`; with `ttl = none` the
backing store raises, the exception is caught, and no entry is written, so
there is no never-expiring put. -/
theorem C9_numeric_ttl_overwrites (r : RedisState) (cpfx key : String)
    (v : DetailedCodesResponse) (t : Nat) (hav : r.available = true) (ht : 0 < t) :
    (cache_set r cpfx key v (some t)).entries
        = insertEntry r.entries (cpfx ++ ":" ++ key) (v.toDict, r.now + t) ∧
    lookupEntry (cache_set r cpfx key v (some t)).entries (cpfx ++ ":" ++ key)
        = some (v.toDict, r.now + t) ∧
    cache_set r cpfx key v none = r := by
  have ht0 : t ≠ 0 := Nat.pos_iff_ne_zero.mp ht
  unfold cache_set redis_setex
  simp [hav, ht0, lookupEntry_insertEntry_self]

/-- Witness for C9 amended: overwrite of an existing entry with expiry
reset, and skipped write for a non-integer TTL. -/
theorem C9_numeric_ttl_overwrites_witness :
    (cache_set
        { available := true, now := 7,
          entries := [("codes_detailed:k", Json.str "old", 9)] }
        "codes_detailed" "k" { codes := [] } (some 3600)).entries
      = insertEntry [("codes_detailed:k", Json.str "old", 9)] ("codes_detailed" ++ ":" ++ "k")
          (DetailedCodesResponse.toDict { codes := [] }, 7 + 3600) ∧
    lookupEntry
        (cache_set
          { available := true, now := 7,
            entries := [("codes_detailed:k", Json.str "old", 9)] }
          "codes_detailed" "k" { codes := [] } (some 3600)).entries
        ("codes_detailed" ++ ":" ++ "k")
      = some (DetailedCodesResponse.toDict { codes := [] }, 7 + 3600) ∧
    cache_set
        { available := true, now := 7,
          entries := [("codes_detailed:k", Json.str "old", 9)] }
        "codes_detailed" "k" { codes := [] } none
      = { available := true, now := 7,
          entries := [("codes_detailed:k", Json.str "old", 9)] } :=
  C9_numeric_ttl_overwrites
    { available := true, now := 7, entries := [("codes_detailed:k", Json.str "old", 9)] }
    "codes_detailed" "k" { codes := [] } 3600 rfl (by decide)

/-- Claim C10.  When the backing store is unavailable every read degrades
to a miss and every write is skipped, leaving the store state unchanged;
the raised exceptions are caught inside the cache helpers and never reach
the caller, whose request proceeds as if the cache were empty. -/
theorem C10_unavailable_degrades (r : RedisState) (cpfx key : String)
    (v : DetailedCodesResponse) (ttl : Option Nat) (h : r.available = false) :
    cache_get r cpfx key = none ∧ cache_set r cpfx key v ttl = r := by
  unfold cache_get redis_get cache_set redis_setex
  simp [h]

/-- Witness for C10 on a concrete unavailable store holding an entry. -/
theorem C10_unavailable_degrades_witness :
    cache_get
        { available := false, now := 0,
          entries := [("codes_detailed:k", Json.str "x", 99)] }
        "codes_detailed" "k" = none ∧
    cache_set
        { available := false, now := 0,
          entries := [("codes_detailed:k", Json.str "x", 99)] }
        "codes_detailed" "k" { codes := [] } (some 3600)
      = { available := false, now := 0,
          entries := [("codes_detailed:k", Json.str "x", 99)] } :=
  C10_unavailable_degrades
    { available := false, now := 0, entries := [("codes_detailed:k", Json.str "x", 99)] }
    "codes_detailed" "k" { codes := [] } (some 3600) rfl
